import Mathlib

/-!
Verification of the zeroindex chunk completeness and repair engine.

This file shallowly embeds the core of the repository:

* `zeroindex/apps/blocks/models.py` — `Chunk.analyze_missing_blocks`,
  `Chunk.repair_missing_blocks`, `ChunkRepairLog`;
* `zeroindex/apps/blocks/tasks.py` — `find_missing_blocks_in_range` and the
  completeness formula of `validate_chunk_task`;
* `apps/blocks/block_chunker.py` — `BlockChunker.compress_chunk`,
  `BlockChunker.save_chunk`, `BlockChunker.verify_chunk`, and the chunk
  envelope built by `create_chunk` / `get_block_with_traces`;
* `apps/blocks/test_chunks.py` — `ChunkValidator.load_chunk`.

Modelling conventions:
* Python ints are `ℤ` (block numbers come from `BigIntegerField` columns and
  JSON integers); Python floats on the values the claims touch are exact, so
  they are modelled as `ℚ`.
* The gzip codec, the JSON text printer/parser and sha256 are external
  library collaborators, not repository code.  They enter as opaque
  parameters (`dumps`/`parse`, `gzipC`/`gzipD`, `sha`) over an opaque byte
  type, with their inverse laws as hypotheses where a claim needs them.
* A chunk file on disk is modelled by its decode outcome: absent, present
  but undecodable (gzip or JSON failure), or a decoded value.
* Python `list.sort` is a stable sort; it is modelled with
  `List.insertionSort`, which is stable and kernel-computable.
* Django's `save()` persists the in-memory record; state is passed
  explicitly, so the `World` value after an operation is the persisted state.
-/

/-- Chunk status values, from `Chunk.STATUS_CHOICES` in `models.py`. -/
inductive CStatus where
  | creating
  | complete
  | incomplete
  | repairing
  | failed
  deriving DecidableEq

/-- One entry of the `blocks` array of a persisted chunk file, as seen by
`models.py`.  The chunk logic only ever reads the `number` key
(`int(block['number'])`, the sort key `x['number']`); every other serialized
field is carried opaquely in `payload`. -/
structure MBlock where
  number : ℤ
  payload : String
  deriving DecidableEq

/-- Decoded content of a chunk file as used by `Chunk.repair_missing_blocks`:
the `blocks` array plus the two metadata keys the repair rewrites
(`metadata['total_blocks']`, `metadata['last_repair']`).  All other envelope
content passes through untouched and is carried opaquely in `extra`. -/
structure ChunkFileData where
  blocks : List MBlock
  meta_total_blocks : ℤ
  meta_last_repair : Option String
  extra : String
  deriving DecidableEq

/-- State of the file at `chunk.file_path`: missing, present but failing
gzip-decompression or JSON parsing, or decoded. -/
inductive FileState where
  | absent
  | corrupt
  | data (d : ChunkFileData)
  deriving DecidableEq

/-- The registry record (`Chunk` model fields the engine reads or writes).
`completeness_percentage` is `ℚ` (exact on all claim-relevant values);
the unclaimed bookkeeping columns `file_size_bytes`, the compression-ratio
column, `total_transactions`, `chunk_date` and the automatic timestamps are
omitted — no embedded operation reads them. -/
structure ChunkState where
  start_block : ℤ
  end_block : ℤ
  status : CStatus
  completeness_percentage : ℚ
  missing_blocks : List ℤ
  file_path : String
  file_hash : String
  total_blocks : ℤ
  last_repair_attempt : Option String
  deriving DecidableEq

/-- The persisted state an operation acts on: the registry record plus the
file stored at `chunk.file_path`. -/
structure World where
  chunk : ChunkState
  file : FileState
  deriving DecidableEq

/-- Python `str.endswith`, on the character list of the string. -/
def endsWithStr (s suffix : String) : Bool :=
  suffix.data.isSuffixOf s.data

/-- Python `range(s, e + 1)` as a list of integers (empty when `e < s`). -/
def blockRange (s e : ℤ) : List ℤ :=
  (List.range (e + 1 - s).toNat).map (fun (i : ℕ) => s + (i : ℤ))

/-- The set `{int(block['number']) for block in blocks}`. -/
def existingNumbers (blocks : List MBlock) : Finset ℤ :=
  (blocks.map (fun b => b.number)).toFinset

/-- The missing-block list of `Chunk.analyze_missing_blocks`:
`[n for n in range(start_block, end_block + 1) if n not in existing]`. -/
def missingCalc (s e : ℤ) (present : Finset ℤ) : List ℤ :=
  (blockRange s e).filter (fun n => decide (n ∉ present))

/-- The completeness formula of `Chunk.analyze_missing_blocks`:
`(actual_blocks / expected_blocks) * 100 if expected_blocks > 0 else 0`,
where `actual_blocks = len(existing_block_numbers)` counts every present
block number, in range or not. -/
def completenessCalc (s e : ℤ) (present : Finset ℤ) : ℚ :=
  if e - s + 1 > 0 then ((present.card : ℚ) / ((e - s + 1 : ℤ) : ℚ)) * 100 else 0

/-- The guard at the top of `Chunk.analyze_missing_blocks`:
`if not self.file_path or not self.file_path.endswith('.json.gz')`. -/
def pathOk (c : ChunkState) : Bool :=
  !(c.file_path == "") && endsWithStr c.file_path ".json.gz"

/-- `Chunk.analyze_missing_blocks` (models.py 191–223).  Reads the chunk
file, recomputes `missing_blocks`, `completeness_percentage` and
`total_blocks`, saves the record, and returns the missing list.  An empty or
non-`.json.gz` path returns `[]` untouched, and any decode error is caught
(`except Exception`), printed, and turned into `[]` with the record
unchanged. -/
def analyze_missing_blocks (w : World) : World × List ℤ :=
  if pathOk w.chunk then
    match w.file with
    | .data d =>
      let existing := existingNumbers d.blocks
      let missing := missingCalc w.chunk.start_block w.chunk.end_block existing
      ({ w with chunk := { w.chunk with
          missing_blocks := missing,
          completeness_percentage :=
            completenessCalc w.chunk.start_block w.chunk.end_block existing,
          total_blocks := (existing.card : ℤ) } }, missing)
    | _ => (w, [])
  else (w, [])

/-- One `ChunkRepairLog` row.  `started_at` (an automatic creation
timestamp) is omitted; `completed_at` is `none` while in flight. -/
structure RepairLog where
  blocks_attempted : ℤ
  blocks_repaired : ℤ
  missing_blocks_before : List ℤ
  missing_blocks_after : List ℤ
  completed_at : Option String
  error_message : String
  deriving DecidableEq

/-- The external collaborators of one repair attempt: the RPC connectivity
check (`w3.is_connected()`), the per-block fetch-and-serialize step
(`w3.eth.get_block` plus the conversion to the chunk block dict — `none`
models a per-block exception), and the wall clock (`datetime.now()`). -/
structure RepairEnv where
  connected : Bool
  fetch : ℤ → Option MBlock
  now : String

/-- The `ChunkRepairLog.objects.create(...)` call of
`Chunk.repair_missing_blocks`: `blocks_attempted = len(missing_blocks)`,
`missing_blocks_before = missing_blocks.copy()`, defaults elsewhere. -/
def repairLogInit (missing : List ℤ) : RepairLog :=
  { blocks_attempted := (missing.length : ℤ)
    blocks_repaired := 0
    missing_blocks_before := missing
    missing_blocks_after := []
    completed_at := none
    error_message := "" }

/-- The merge step of `Chunk.repair_missing_blocks`:
`chunk_data['blocks'].extend(new_blocks)` then
`chunk_data['blocks'].sort(key=lambda x: x['number'])` (a stable sort). -/
def mergeBlocks (old fetched : List MBlock) : List MBlock :=
  (old ++ fetched).insertionSort (fun a b => a.number ≤ b.number)

/-- The merged chunk file written by the repair (models.py 305–316):
blocks extended with the fetched ones and stably re-sorted by number,
`metadata['total_blocks']` and `metadata['last_repair']` rewritten,
everything else preserved. -/
def mergedFile (env : RepairEnv) (d : ChunkFileData) (missing : List ℤ) : ChunkFileData :=
  { blocks := mergeBlocks d.blocks ((missing.take 5).filterMap env.fetch)
    meta_total_blocks := ((mergeBlocks d.blocks ((missing.take 5).filterMap env.fetch)).length : ℤ)
    meta_last_repair := some env.now
    extra := d.extra }

/-- The world after the repair wrote the merged file and re-ran
`self.analyze_missing_blocks()` (models.py 314–319); `c` is the chunk record
as saved before the fetch loop (status `repairing`). -/
def repairReanalyzed (env : RepairEnv) (c : ChunkState) (d : ChunkFileData)
    (missing : List ℤ) : World :=
  (analyze_missing_blocks
    { chunk := { c with status := .repairing, last_repair_attempt := some env.now }
      file := .data (mergedFile env d missing) }).1

/-- Result of a repair attempt in which at least one block was fetched
(models.py 305–333): merged file written, completeness re-analyzed, status
set from the recomputed percentage, log finalized. -/
def repairMergeResult (env : RepairEnv) (c : ChunkState) (d : ChunkFileData)
    (missing : List ℤ) : World × Option RepairLog :=
  ({ chunk := { (repairReanalyzed env c d missing).chunk with
        status :=
          if (repairReanalyzed env c d missing).chunk.completeness_percentage = 100
          then CStatus.complete else CStatus.incomplete }
     file := (repairReanalyzed env c d missing).file },
   some { repairLogInit missing with
      blocks_repaired := (((missing.take 5).filterMap env.fetch).length : ℤ)
      missing_blocks_after := (repairReanalyzed env c d missing).chunk.missing_blocks
      completed_at := some env.now })

/-- The fetch loop and what follows (models.py 263–333): the first five
missing numbers are fetched in order, failures skipped (`filterMap`).  With
nothing fetched the file is untouched and the chunk is saved as is — still
in `repairing` status; otherwise the merge result applies.  The log is
finalized in both cases. -/
def repairFetchMerge (env : RepairEnv) (c : ChunkState) (d : ChunkFileData)
    (missing : List ℤ) : World × Option RepairLog :=
  if (missing.take 5).filterMap env.fetch = [] then
    ({ chunk := { c with status := .repairing, last_repair_attempt := some env.now }
       file := .data d },
     some { repairLogInit missing with
        missing_blocks_after := c.missing_blocks,
        completed_at := some env.now })
  else repairMergeResult env c d missing

/-- Body of `Chunk.repair_missing_blocks` after the initial
`analyze_missing_blocks` call, acting on the saved world `w1` and the
returned `missing` list (models.py 230–340).  Branches, in source order: an
empty missing list returns `None`; the status (`repairing`) and
`last_repair_attempt` are saved and a `ChunkRepairLog` is created with
`blocks_attempted = len(missing_blocks)`; a failed connectivity check marks
the chunk `failed`; an unreadable chunk file raises into the outer
`except`, which also marks the chunk `failed`; otherwise the fetch/merge
phase runs. -/
def repair_after_analyze (env : RepairEnv) (w1 : World) (missing : List ℤ) :
    World × Option RepairLog :=
  if missing = [] then (w1, none)
  else if env.connected = false then
    ({ chunk := { w1.chunk with status := .failed, last_repair_attempt := some env.now }
       file := w1.file },
     some { repairLogInit missing with error_message := "Cannot connect to RPC" })
  else
    match w1.file with
    | .data d => repairFetchMerge env w1.chunk d missing
    | f =>
      ({ chunk := { w1.chunk with status := .failed, last_repair_attempt := some env.now }
         file := f },
       some { repairLogInit missing with error_message := "cannot read chunk file" })

/-- `Chunk.repair_missing_blocks` (models.py 225–340): analyze, then run the
repair body on the saved record and the missing list. -/
def repair_missing_blocks (env : RepairEnv) (w : World) : World × Option RepairLog :=
  repair_after_analyze env (analyze_missing_blocks w).1 (analyze_missing_blocks w).2

/-- `find_missing_blocks_in_range` (tasks.py 264–272):
`sorted(set(range(start, end + 1)) - {int(b['number']) for b in blocks})`,
with a shortcut returning the whole range for an empty blocks list. -/
def find_missing_blocks_in_range (numbers : List ℤ) (s e : ℤ) : List ℤ :=
  if numbers = [] then blockRange s e
  else (Finset.Icc s e \ numbers.toFinset).sort (· ≤ ·)

/-- The completeness formula of `validate_chunk_task` (tasks.py 101–108):
`((actual_blocks - len(missing_blocks)) / expected_blocks) * 100` with
`actual_blocks = len(blocks)` (the raw list length).  The Python code has no
guard on `expected_blocks`; the claims only exercise positive spans. -/
def validateCompleteness (s e : ℤ) (numbers : List ℤ) : ℚ :=
  (((numbers.length : ℤ) - ((find_missing_blocks_in_range numbers s e).length : ℤ) : ℤ) : ℚ)
    / ((e - s + 1 : ℤ) : ℚ) * 100

/-- A JSON value, the shape shared by `json.dumps` and `json.load`.  Numbers
are integers (every numeric field of the chunk envelope is a Python int;
floats do not occur in the claimed fields).  Objects are insertion-ordered
key/value lists, as Python dicts are. -/
inductive Json where
  | null
  | bool (b : Bool)
  | num (n : ℤ)
  | str (s : String)
  | arr (xs : List Json)
  | obj (fields : List (String × Json))

/-- Python `d[k]` / `d.get(k)` on a JSON object: the value of the first
matching key, `none` when the key is absent or the value is not an object. -/
def Json.getField? : Json → String → Option Json
  | .obj fields, k => fields.lookup k
  | _, _ => none

/-- Read a JSON string. -/
def Json.asStr? : Json → Option String
  | .str s => some s
  | _ => none

/-- Read a JSON integer. -/
def Json.asInt? : Json → Option ℤ
  | .num n => some n
  | _ => none

/-- Read a JSON array. -/
def Json.asArr? : Json → Option (List Json)
  | .arr xs => some xs
  | _ => none

/-- A nullable string field (`None` serializes to JSON `null`). -/
def optStrJson : Option String → Json
  | none => .null
  | some s => .str s

/-- Inverse of `optStrJson`: `null` reads back as `none`, anything that is
not `null` or a string fails. -/
def optStrFromJson : Json → Option (Option String)
  | .null => some none
  | .str s => some (some s)
  | _ => none

/-- One transaction record of the chunk envelope, as built by
`BlockChunker.get_block_with_traces` (block_chunker.py 77–110).
`from_address` carries the `"from"` key (`from` is reserved in Lean);
`to` is nullable (contract creation); `receipt` and `trace` are opaque
JSON payloads (`null` when unavailable). -/
structure TxRec where
  hash : String
  from_address : String
  toAddr : Option String
  value : String
  gas : ℤ
  gasPrice : String
  maxFeePerGas : Option String
  maxPriorityFeePerGas : Option String
  nonce : ℤ
  input : String
  receipt : Json
  trace : Json

/-- One block record of the chunk envelope, as built by
`BlockChunker.get_block_with_traces` (block_chunker.py 52–116).  The
`uncles` key is only written when the list is non-empty
(`if block.get('uncles')`). -/
structure BlockRec where
  number : ℤ
  hash : String
  parentHash : String
  timestamp : ℤ
  miner : String
  difficulty : ℤ
  totalDifficulty : ℤ
  size : ℤ
  gasUsed : ℤ
  gasLimit : ℤ
  baseFeePerGas : ℤ
  transactions : List TxRec
  uncles : List String

/-- The `metadata` sub-dict of the chunk envelope, computed by
`BlockChunker.create_chunk` (block_chunker.py 151–157). -/
structure MetaRec where
  block_count : ℤ
  start_timestamp : ℤ
  end_timestamp : ℤ
  total_transactions : ℤ
  total_gas_used : ℤ

/-- The chunk envelope built by `BlockChunker.create_chunk`
(block_chunker.py 129–159): the dict passed to `compress_chunk`. -/
structure ChunkEnv where
  version : String
  chain : String
  start_block : ℤ
  end_block : ℤ
  created_at : String
  blocks : List BlockRec
  metadata : MetaRec

/-- Serialization of one transaction, key for key and in insertion order
from `get_block_with_traces` (`trace` is assigned after the dict literal,
hence last). -/
def txToJson (t : TxRec) : Json :=
  .obj [("hash", .str t.hash),
        ("from", .str t.from_address),
        ("to", optStrJson t.toAddr),
        ("value", .str t.value),
        ("gas", .num t.gas),
        ("gasPrice", .str t.gasPrice),
        ("maxFeePerGas", optStrJson t.maxFeePerGas),
        ("maxPriorityFeePerGas", optStrJson t.maxPriorityFeePerGas),
        ("nonce", .num t.nonce),
        ("input", .str t.input),
        ("receipt", t.receipt),
        ("trace", t.trace)]

/-- Serialization of one block, key for key and in insertion order from
`get_block_with_traces` (`uncles` is appended after the transaction loop and
only when non-empty). -/
def blockToJson (b : BlockRec) : Json :=
  .obj ([("number", .num b.number),
         ("hash", .str b.hash),
         ("parentHash", .str b.parentHash),
         ("timestamp", .num b.timestamp),
         ("miner", .str b.miner),
         ("difficulty", .num b.difficulty),
         ("totalDifficulty", .num b.totalDifficulty),
         ("size", .num b.size),
         ("gasUsed", .num b.gasUsed),
         ("gasLimit", .num b.gasLimit),
         ("baseFeePerGas", .num b.baseFeePerGas),
         ("transactions", .arr (b.transactions.map txToJson))] ++
        (if b.uncles = [] then []
         else [("uncles", .arr (b.uncles.map Json.str))]))

/-- Serialization of the metadata sub-dict (`create_chunk`, insertion
order of block_chunker.py 151–157). -/
def metaToJson (m : MetaRec) : Json :=
  .obj [("block_count", .num m.block_count),
        ("start_timestamp", .num m.start_timestamp),
        ("end_timestamp", .num m.end_timestamp),
        ("total_transactions", .num m.total_transactions),
        ("total_gas_used", .num m.total_gas_used)]

/-- Serialization of the chunk envelope (`create_chunk`: the dict literal of
block_chunker.py 129–136, with `metadata` assigned after the fetch loop). -/
def envToJson (env : ChunkEnv) : Json :=
  .obj [("version", .str env.version),
        ("chain", .str env.chain),
        ("start_block", .num env.start_block),
        ("end_block", .num env.end_block),
        ("created_at", .str env.created_at),
        ("blocks", .arr (env.blocks.map blockToJson)),
        ("metadata", metaToJson env.metadata)]

/-- Python list-building loop over a decoder: decode each element,
failing if any element fails (structural recursion, used by the readers). -/
def mapOpt {α β : Type} (f : α → Option β) : List α → Option (List β)
  | [] => some []
  | x :: xs => (f x).bind fun y => (mapOpt f xs).map (fun ys => y :: ys)

/-- Reader helper: the uncles key, absent meaning the empty list
(the writer omits the key for an empty list). -/
def unclesFromJson (j : Json) : Option (List String) :=
  match j.getField? "uncles" with
  | none => some []
  | some v => v.asArr?.bind (mapOpt Json.asStr?)

/-- Reader helper: first six transaction fields. -/
def txFieldsA (j : Json) :
    Option (String × String × Option String × String × ℤ × String) := do
  let hash ← (j.getField? "hash").bind Json.asStr?
  let fromA ← (j.getField? "from").bind Json.asStr?
  let toA ← (j.getField? "to").bind optStrFromJson
  let value ← (j.getField? "value").bind Json.asStr?
  let gas ← (j.getField? "gas").bind Json.asInt?
  let gasPrice ← (j.getField? "gasPrice").bind Json.asStr?
  pure (hash, fromA, toA, value, gas, gasPrice)

/-- Reader helper: remaining transaction fields. -/
def txFieldsB (j : Json) :
    Option (Option String × Option String × ℤ × String × Json × Json) := do
  let maxFee ← (j.getField? "maxFeePerGas").bind optStrFromJson
  let maxPrio ← (j.getField? "maxPriorityFeePerGas").bind optStrFromJson
  let nonce ← (j.getField? "nonce").bind Json.asInt?
  let input ← (j.getField? "input").bind Json.asStr?
  let receipt ← j.getField? "receipt"
  let trace ← j.getField? "trace"
  pure (maxFee, maxPrio, nonce, input, receipt, trace)

/-- Reader for one transaction: the decode direction of the round-trip law
(spec §4.2), reading back exactly the keys `get_block_with_traces` writes,
with `null` mapping to `None` for the nullable fields. -/
def txFromJson (j : Json) : Option TxRec := do
  let (hash, fromA, toA, value, gas, gasPrice) ← txFieldsA j
  let (maxFee, maxPrio, nonce, input, receipt, trace) ← txFieldsB j
  pure { hash := hash, from_address := fromA, toAddr := toA, value := value,
         gas := gas, gasPrice := gasPrice, maxFeePerGas := maxFee,
         maxPriorityFeePerGas := maxPrio, nonce := nonce, input := input,
         receipt := receipt, trace := trace }

/-- Reader helper: first five block fields. -/
def blockFieldsA (j : Json) : Option (ℤ × String × String × ℤ × String) := do
  let number ← (j.getField? "number").bind Json.asInt?
  let hash ← (j.getField? "hash").bind Json.asStr?
  let parentHash ← (j.getField? "parentHash").bind Json.asStr?
  let timestamp ← (j.getField? "timestamp").bind Json.asInt?
  let miner ← (j.getField? "miner").bind Json.asStr?
  pure (number, hash, parentHash, timestamp, miner)

/-- Reader helper: the six numeric block fields. -/
def blockFieldsB (j : Json) : Option (ℤ × ℤ × ℤ × ℤ × ℤ × ℤ) := do
  let difficulty ← (j.getField? "difficulty").bind Json.asInt?
  let totalDifficulty ← (j.getField? "totalDifficulty").bind Json.asInt?
  let size ← (j.getField? "size").bind Json.asInt?
  let gasUsed ← (j.getField? "gasUsed").bind Json.asInt?
  let gasLimit ← (j.getField? "gasLimit").bind Json.asInt?
  let baseFee ← (j.getField? "baseFeePerGas").bind Json.asInt?
  pure (difficulty, totalDifficulty, size, gasUsed, gasLimit, baseFee)

/-- Reader for one block: decode direction of the round-trip law.  A
missing `uncles` key reads back as the empty list, matching the writer
which omits the key for an empty list. -/
def blockFromJson (j : Json) : Option BlockRec := do
  let (number, hash, parentHash, timestamp, miner) ← blockFieldsA j
  let (difficulty, totalDifficulty, size, gasUsed, gasLimit, baseFee) ← blockFieldsB j
  let txsJson ← (j.getField? "transactions").bind Json.asArr?
  let txs ← mapOpt txFromJson txsJson
  let uncles ← unclesFromJson j
  pure { number := number, hash := hash, parentHash := parentHash,
         timestamp := timestamp, miner := miner, difficulty := difficulty,
         totalDifficulty := totalDifficulty, size := size,
         gasUsed := gasUsed, gasLimit := gasLimit, baseFeePerGas := baseFee,
         transactions := txs, uncles := uncles }

/-- Reader for the metadata sub-dict. -/
def metaFromJson (j : Json) : Option MetaRec := do
  let bc ← (j.getField? "block_count").bind Json.asInt?
  let st ← (j.getField? "start_timestamp").bind Json.asInt?
  let et ← (j.getField? "end_timestamp").bind Json.asInt?
  let tt ← (j.getField? "total_transactions").bind Json.asInt?
  let tg ← (j.getField? "total_gas_used").bind Json.asInt?
  pure { block_count := bc, start_timestamp := st, end_timestamp := et,
         total_transactions := tt, total_gas_used := tg }

/-- Reader helper: the five scalar envelope fields. -/
def envFieldsA (j : Json) : Option (String × String × ℤ × ℤ × String) := do
  let version ← (j.getField? "version").bind Json.asStr?
  let chain ← (j.getField? "chain").bind Json.asStr?
  let sb ← (j.getField? "start_block").bind Json.asInt?
  let eb ← (j.getField? "end_block").bind Json.asInt?
  let ca ← (j.getField? "created_at").bind Json.asStr?
  pure (version, chain, sb, eb, ca)

/-- Reader for the whole chunk envelope. -/
def envFromJson (j : Json) : Option ChunkEnv := do
  let (version, chain, sb, eb, ca) ← envFieldsA j
  let blocksJson ← (j.getField? "blocks").bind Json.asArr?
  let blocks ← mapOpt blockFromJson blocksJson
  let meta ← (j.getField? "metadata").bind metaFromJson
  pure { version := version, chain := chain, start_block := sb,
         end_block := eb, created_at := ca, blocks := blocks,
         metadata := meta }

/-- The sidecar metadata computed by `BlockChunker.compress_chunk`
(block_chunker.py 173–179).  The `compression_ratio` entry
(`original_size / compressed_size`, a float) is omitted: no claim reads it
and no embedded operation depends on it. -/
structure ChunkFileMetadata where
  original_size : ℕ
  compressed_size : ℕ
  sha256 : String
  blocks_field : String

/-- `BlockChunker.compress_chunk` over an opaque byte type `B`:
JSON-serialize, gzip-compress, and record sizes and the sha256 of the
compressed bytes.  `dumps`, `size`, `gzipC` and `sha` are the external
`json.dumps`, `len`, `gzip.compress` and `hashlib.sha256` collaborators. -/
def compress_chunk {B : Type} (dumps : Json → B) (size : B → ℕ)
    (gzipC : B → B) (sha : B → String) (j : Json) : B × ChunkFileMetadata :=
  let json_bytes := dumps j
  let compressed := gzipC json_bytes
  (compressed,
   { original_size := size json_bytes
     compressed_size := size compressed
     sha256 := sha compressed
     blocks_field :=
       match j.getField? "start_block", j.getField? "end_block" with
       | some (.num s), some (.num e) => toString s ++ "-" ++ toString e
       | _, _ => "" })

/-- The JSON written to the `.meta` sidecar by `BlockChunker.save_chunk`
(`json.dump(metadata, f, indent=2)`). -/
def metaFileJson (m : ChunkFileMetadata) : Json :=
  .obj [("original_size", .num (m.original_size : ℤ)),
        ("compressed_size", .num (m.compressed_size : ℤ)),
        ("sha256", .str m.sha256),
        ("blocks", .str m.blocks_field)]

/-- The pair of files on disk after chunker operations: the compressed
chunk file (raw bytes `B`) and the `.meta` sidecar, the latter by its JSON
parse outcome (`none`: absent; `some none`: present but not valid JSON;
`some (some j)`: parses to `j`). -/
structure ChunkerFS (B : Type) where
  chunkFile : Option B
  metaFile : Option (Option Json)

/-- `BlockChunker.save_chunk` (block_chunker.py 183–209): compress, write
the chunk file, write the sidecar metadata. -/
def save_chunk {B : Type} (dumps : Json → B) (size : B → ℕ)
    (gzipC : B → B) (sha : B → String) (j : Json) : ChunkerFS B :=
  let cm := compress_chunk dumps size gzipC sha j
  { chunkFile := some cm.1, metaFile := some (some (metaFileJson cm.2)) }

/-- `BlockChunker.verify_chunk` (block_chunker.py 268–287): `False` when
either file is absent; otherwise `json.load` the sidecar (raising on
invalid JSON), read `metadata['sha256']` (raising `KeyError` when absent —
a non-object sidecar likewise raises `TypeError`), recompute the sha256 of
the chunk file bytes and compare (a Python `==` against a non-string value
is `False`). -/
def verify_chunk {B : Type} (sha : B → String) (fs : ChunkerFS B) :
    Except String Bool :=
  match fs.chunkFile, fs.metaFile with
  | none, _ => .ok false
  | some _, none => .ok false
  | some data, some mp =>
    match mp with
    | none => .error "json.load: invalid JSON in sidecar"
    | some m =>
      match m.getField? "sha256" with
      | some (.str h) => .ok (sha data == h)
      | some _ => .ok false
      | none => .error "KeyError: sha256"

/-- `ChunkValidator.load_chunk` (test_chunks.py 47–53) by the decode
outcome of the chunk file: any failure (absent file, gzip failure, JSON
failure) is re-raised as `ValueError("Cannot load chunk ...")`. -/
def load_chunk (f : Option (Option Json)) : Except String Json :=
  match f with
  | some (some j) => .ok j
  | _ => .error "Cannot load chunk"

/-- Decode of a persisted chunk file back to the typed envelope:
gzip-decompress (external `gzipD`), JSON-parse (external `parse`), then read
the envelope fields. -/
def decode_chunk {B : Type} (parse : B → Option Json) (gzipD : B → B)
    (b : B) : Option ChunkEnv :=
  (parse (gzipD b)).bind envFromJson

/-! Basic facts about `blockRange`, `missingCalc` and `completenessCalc`. -/

lemma blockRange_eq_nil {s e : ℤ} (h : e < s) : blockRange s e = [] := by
  unfold blockRange
  rw [show (e + 1 - s).toNat = 0 by omega]
  rfl

lemma mem_blockRange {s e n : ℤ} : n ∈ blockRange s e ↔ s ≤ n ∧ n ≤ e := by
  unfold blockRange
  rw [List.mem_map]
  constructor
  · rintro ⟨i, hi, rfl⟩
    rw [List.mem_range] at hi
    omega
  · intro h
    refine ⟨(n - s).toNat, ?_, by omega⟩
    rw [List.mem_range]
    omega

lemma nodup_blockRange (s e : ℤ) : (blockRange s e).Nodup := by
  unfold blockRange
  refine List.Nodup.map ?_ (List.nodup_range _)
  intro a b hab
  dsimp only at hab
  omega

lemma sorted_blockRange (s e : ℤ) : (blockRange s e).Sorted (· < ·) := by
  unfold blockRange
  refine List.Pairwise.map _ ?_ (List.pairwise_lt_range _)
  intro a b hab
  omega

lemma toFinset_blockRange (s e : ℤ) : (blockRange s e).toFinset = Finset.Icc s e := by
  ext n
  simp [List.mem_toFinset, mem_blockRange, Finset.mem_Icc]

lemma mem_missingCalc {s e n : ℤ} {p : Finset ℤ} :
    n ∈ missingCalc s e p ↔ s ≤ n ∧ n ≤ e ∧ n ∉ p := by
  unfold missingCalc
  simp only [List.mem_filter, mem_blockRange, decide_eq_true_eq]
  tauto

lemma sorted_missingCalc (s e : ℤ) (p : Finset ℤ) :
    (missingCalc s e p).Sorted (· < ·) :=
  List.Pairwise.filter _ (sorted_blockRange s e)

lemma nodup_missingCalc (s e : ℤ) (p : Finset ℤ) : (missingCalc s e p).Nodup :=
  List.Nodup.filter _ (nodup_blockRange s e)

lemma missingCalc_eq_nil_of_lt {s e : ℤ} (h : e < s) (p : Finset ℤ) :
    missingCalc s e p = [] := by
  unfold missingCalc
  rw [blockRange_eq_nil h]
  rfl

lemma length_missingCalc {s e : ℤ} (h : s ≤ e) (p : Finset ℤ) :
    ((missingCalc s e p).length : ℤ) + ((p ∩ Finset.Icc s e).card : ℤ) = e - s + 1 := by
  have h1 : (missingCalc s e p).toFinset = (Finset.Icc s e).filter (fun n => n ∉ p) := by
    ext n
    simp only [List.mem_toFinset, mem_missingCalc, Finset.mem_filter, Finset.mem_Icc]
    tauto
  have h2 : (missingCalc s e p).length = ((Finset.Icc s e).filter (fun n => n ∉ p)).card := by
    rw [← h1, List.toFinset_card_of_nodup (nodup_missingCalc s e p)]
  have h3 : ((Finset.Icc s e).filter (fun n => n ∈ p)).card
      + ((Finset.Icc s e).filter (fun n => n ∉ p)).card = (Finset.Icc s e).card :=
    Finset.filter_card_add_filter_neg_card_eq_card (fun n => n ∈ p)
  have h4 : (Finset.Icc s e).filter (fun n => n ∈ p) = p ∩ Finset.Icc s e := by
    rw [Finset.filter_mem_eq_inter, Finset.inter_comm]
  have h5 : (Finset.Icc s e).card = (e + 1 - s).toNat := Int.card_Icc s e
  rw [h2]
  rw [h4] at h3
  omega

lemma completenessCalc_eq {s e : ℤ} (h : s ≤ e) (p : Finset ℤ) :
    completenessCalc s e p = 100 * (p.card : ℚ) / ((e : ℚ) - (s : ℚ) + 1) := by
  unfold completenessCalc
  rw [if_pos (by omega)]
  have hc : ((e - s + 1 : ℤ) : ℚ) = (e : ℚ) - (s : ℚ) + 1 := by push_cast; ring
  rw [hc]
  ring

lemma completenessCalc_eq_100_iff {s e : ℤ} (h : s ≤ e) (p : Finset ℤ) :
    completenessCalc s e p = 100 ↔ (p.card : ℤ) = e - s + 1 := by
  unfold completenessCalc
  rw [if_pos (by omega)]
  have hne : ((e - s + 1 : ℤ) : ℚ) ≠ 0 := by
    rw [Int.cast_ne_zero]
    omega
  rw [div_mul_eq_mul_div, div_eq_iff hne]
  constructor
  · intro hq
    have hq2 : (p.card : ℚ) = ((e - s + 1 : ℤ) : ℚ) := by linarith
    exact_mod_cast hq2
  · intro hq
    have hq2 : (p.card : ℚ) = ((e - s + 1 : ℤ) : ℚ) := by exact_mod_cast hq
    rw [hq2]
    ring

lemma completenessCalc_of_lt {s e : ℤ} (h : e < s) (p : Finset ℤ) :
    completenessCalc s e p = 0 := by
  unfold completenessCalc
  rw [if_neg (by omega)]

/-! Structural facts about `analyze_missing_blocks` and
`repair_missing_blocks`. -/

lemma analyze_of_guard_false {w : World} (h : pathOk w.chunk = false) :
    analyze_missing_blocks w = (w, []) := by
  unfold analyze_missing_blocks
  rw [h]
  rfl

lemma analyze_of_absent {w : World} (h : w.file = .absent) :
    analyze_missing_blocks w = (w, []) := by
  unfold analyze_missing_blocks
  rw [h]
  split <;> rfl

lemma analyze_of_corrupt {w : World} (h : w.file = .corrupt) :
    analyze_missing_blocks w = (w, []) := by
  unfold analyze_missing_blocks
  rw [h]
  split <;> rfl

lemma analyze_of_data {w : World} {d : ChunkFileData} (hp : pathOk w.chunk = true)
    (hf : w.file = .data d) :
    analyze_missing_blocks w =
      ({ w with chunk := { w.chunk with
          missing_blocks :=
            missingCalc w.chunk.start_block w.chunk.end_block (existingNumbers d.blocks),
          completeness_percentage :=
            completenessCalc w.chunk.start_block w.chunk.end_block (existingNumbers d.blocks),
          total_blocks := ((existingNumbers d.blocks).card : ℤ) } },
       missingCalc w.chunk.start_block w.chunk.end_block (existingNumbers d.blocks)) := by
  unfold analyze_missing_blocks
  rw [hp, hf]
  rfl

lemma analyze_preserves (w : World) :
    (analyze_missing_blocks w).1.file = w.file ∧
    (analyze_missing_blocks w).1.chunk.start_block = w.chunk.start_block ∧
    (analyze_missing_blocks w).1.chunk.end_block = w.chunk.end_block ∧
    (analyze_missing_blocks w).1.chunk.status = w.chunk.status ∧
    (analyze_missing_blocks w).1.chunk.file_path = w.chunk.file_path ∧
    (analyze_missing_blocks w).1.chunk.file_hash = w.chunk.file_hash ∧
    (analyze_missing_blocks w).1.chunk.last_repair_attempt = w.chunk.last_repair_attempt := by
  unfold analyze_missing_blocks
  split
  · split <;> simp
  · simp

lemma analyze_snd_sorted (w : World) :
    ((analyze_missing_blocks w).2).Sorted (· < ·) := by
  unfold analyze_missing_blocks
  split
  · split
    · exact sorted_missingCalc _ _ _
    · exact List.sorted_nil
  · exact List.sorted_nil

lemma analyze_snd_ne_nil {w : World} (h : (analyze_missing_blocks w).2 ≠ []) :
    pathOk w.chunk = true ∧ ∃ d, w.file = .data d := by
  by_cases hp : pathOk w.chunk
  · refine ⟨hp, ?_⟩
    cases hf : w.file with
    | data d => exact ⟨d, rfl⟩
    | absent => rw [analyze_of_absent hf] at h; exact absurd rfl h
    | corrupt => rw [analyze_of_corrupt hf] at h; exact absurd rfl h
  · rw [analyze_of_guard_false (by simpa using hp)] at h
    exact absurd rfl h

lemma analyze_missing_field {w : World} {d : ChunkFileData} (hp : pathOk w.chunk = true)
    (hf : w.file = .data d) :
    (analyze_missing_blocks w).1.chunk.missing_blocks =
      missingCalc w.chunk.start_block w.chunk.end_block (existingNumbers d.blocks) ∧
    (analyze_missing_blocks w).1.chunk.completeness_percentage =
      completenessCalc w.chunk.start_block w.chunk.end_block (existingNumbers d.blocks) := by
  rw [analyze_of_data hp hf]
  exact ⟨rfl, rfl⟩

lemma analyze_file_hash (v : World) :
    (analyze_missing_blocks v).1.chunk.file_hash = v.chunk.file_hash :=
  (analyze_preserves v).2.2.2.2.2.1

lemma repairFetchMerge_file_hash (env : RepairEnv) (c : ChunkState)
    (d : ChunkFileData) (missing : List ℤ) :
    (repairFetchMerge env c d missing).1.chunk.file_hash = c.file_hash := by
  unfold repairFetchMerge
  split
  · rfl
  · exact analyze_file_hash _

lemma repair_file_hash_eq (env : RepairEnv) (w : World) :
    (repair_missing_blocks env w).1.chunk.file_hash = w.chunk.file_hash := by
  unfold repair_missing_blocks repair_after_analyze
  split
  · exact analyze_file_hash w
  · split
    · exact analyze_file_hash w
    · split
      · exact (repairFetchMerge_file_hash _ _ _ _).trans (analyze_file_hash w)
      · exact analyze_file_hash w

lemma repair_attempted {env : RepairEnv} {w : World}
    (h : (analyze_missing_blocks w).2 ≠ []) :
    ((repair_missing_blocks env w).2).map (fun l => l.blocks_attempted)
      = some ((((analyze_missing_blocks w).2).length : ℤ)) := by
  unfold repair_missing_blocks repair_after_analyze
  rw [if_neg h]
  split
  · rfl
  · split
    · unfold repairFetchMerge
      split
      · rfl
      · rfl
    · rfl

/-- A status write on the record before the operation: the load state a
repair attempt that "finds `status == repairing`" would see. -/
def setStatus (w : World) (s : CStatus) : World :=
  { w with chunk := { w.chunk with status := s } }

lemma analyze_setStatus (w : World) (s : CStatus) :
    analyze_missing_blocks (setStatus w s)
      = (setStatus (analyze_missing_blocks w).1 s, (analyze_missing_blocks w).2) := by
  cases w with | mk c f =>
  cases c
  unfold analyze_missing_blocks setStatus pathOk
  dsimp only
  split
  · cases f <;> rfl
  · rfl

lemma repairFetchMerge_status_blind (env : RepairEnv) (c : ChunkState)
    (d : ChunkFileData) (missing : List ℤ) (s : CStatus) :
    (repairFetchMerge env { c with status := s } d missing).2
        = (repairFetchMerge env c d missing).2 ∧
    (repairFetchMerge env { c with status := s } d missing).1.file
        = (repairFetchMerge env c d missing).1.file := by
  unfold repairFetchMerge
  split
  · exact ⟨rfl, rfl⟩
  · exact ⟨rfl, rfl⟩

lemma repair_setStatus (env : RepairEnv) (w : World) (s : CStatus) :
    (repair_missing_blocks env (setStatus w s)).2 = (repair_missing_blocks env w).2 ∧
    (repair_missing_blocks env (setStatus w s)).1.file
      = (repair_missing_blocks env w).1.file := by
  unfold repair_missing_blocks
  rw [analyze_setStatus]
  dsimp only
  unfold repair_after_analyze setStatus
  dsimp only
  split
  · exact ⟨rfl, rfl⟩
  · split
    · exact ⟨rfl, rfl⟩
    · split
      · exact repairFetchMerge_status_blind env _ _ _ s
      · exact ⟨rfl, rfl⟩

lemma repair_env_agree (env env2 : RepairEnv) (w : World)
    (hc : env.connected = env2.connected) (hn : env.now = env2.now)
    (hf : ∀ n ∈ ((analyze_missing_blocks w).2).take 5, env.fetch n = env2.fetch n) :
    repair_missing_blocks env w = repair_missing_blocks env2 w := by
  cases env with | mk ec ef en =>
  cases env2 with | mk ec2 ef2 en2 =>
  dsimp only at hc hn hf
  subst hc
  subst hn
  have hfetched :
      (((analyze_missing_blocks w).2).take 5).filterMap ef
        = (((analyze_missing_blocks w).2).take 5).filterMap ef2 :=
    List.filterMap_congr hf
  unfold repair_missing_blocks repair_after_analyze repairFetchMerge
    repairMergeResult repairReanalyzed mergedFile
  dsimp only
  rw [hfetched]

lemma pathOk_of_file_path_eq {c c2 : ChunkState} (h : c.file_path = c2.file_path) :
    pathOk c = pathOk c2 := by
  unfold pathOk
  rw [h]

lemma repairFetchMerge_fields_reflect (env : RepairEnv) (c : ChunkState)
    (d0 d : ChunkFileData) (missing : List ℤ) (hp : pathOk c = true)
    (hm : c.missing_blocks = missingCalc c.start_block c.end_block (existingNumbers d0.blocks))
    (hcp : c.completeness_percentage
      = completenessCalc c.start_block c.end_block (existingNumbers d0.blocks))
    (hf : (repairFetchMerge env c d0 missing).1.file = .data d) :
    (repairFetchMerge env c d0 missing).1.chunk.missing_blocks
      = missingCalc c.start_block c.end_block (existingNumbers d.blocks) ∧
    (repairFetchMerge env c d0 missing).1.chunk.completeness_percentage
      = completenessCalc c.start_block c.end_block (existingNumbers d.blocks) := by
  by_cases hfe : (missing.take 5).filterMap env.fetch = []
  · unfold repairFetchMerge at hf ⊢
    rw [if_pos hfe] at hf ⊢
    simp only [FileState.data.injEq] at hf
    subst hf
    exact ⟨hm, hcp⟩
  · have hp2 :
        pathOk { c with status := CStatus.repairing, last_repair_attempt := some env.now }
          = true := hp
    have ha := analyze_of_data (w :=
      { chunk := { c with status := .repairing, last_repair_attempt := some env.now }
        file := .data (mergedFile env d0 missing) }) (d := mergedFile env d0 missing) hp2 rfl
    have hfile : (repairFetchMerge env c d0 missing).1.file
        = .data (mergedFile env d0 missing) := by
      unfold repairFetchMerge
      rw [if_neg hfe]
      unfold repairMergeResult repairReanalyzed
      rw [ha]
    have hd : mergedFile env d0 missing = d := by
      rw [hfile] at hf
      simp only [FileState.data.injEq] at hf
      exact hf
    subst hd
    constructor
    · unfold repairFetchMerge
      rw [if_neg hfe]
      unfold repairMergeResult repairReanalyzed
      rw [ha]
    · unfold repairFetchMerge
      rw [if_neg hfe]
      unfold repairMergeResult repairReanalyzed
      rw [ha]

lemma repair_fields_reflect (env : RepairEnv) (w : World) (d : ChunkFileData)
    (hp : pathOk w.chunk = true)
    (hf : (repair_missing_blocks env w).1.file = .data d) :
    (repair_missing_blocks env w).1.chunk.missing_blocks
      = missingCalc w.chunk.start_block w.chunk.end_block (existingNumbers d.blocks) ∧
    (repair_missing_blocks env w).1.chunk.completeness_percentage
      = completenessCalc w.chunk.start_block w.chunk.end_block (existingNumbers d.blocks) := by
  have hpres := analyze_preserves w
  unfold repair_missing_blocks at hf ⊢
  by_cases h0 : (analyze_missing_blocks w).2 = []
  · rw [show repair_after_analyze env (analyze_missing_blocks w).1 (analyze_missing_blocks w).2
        = ((analyze_missing_blocks w).1, none) by
      unfold repair_after_analyze
      rw [if_pos h0]] at hf ⊢
    have hwf : w.file = .data d := by rw [← hpres.1]; exact hf
    exact analyze_missing_field hp hwf
  · unfold repair_after_analyze at hf ⊢
    rw [if_neg h0] at hf ⊢
    by_cases hc : env.connected = false
    · rw [if_pos hc] at hf ⊢
      have hwf : w.file = .data d := by rw [← hpres.1]; exact hf
      exact analyze_missing_field hp hwf
    · rw [if_neg hc] at hf ⊢
      cases hwf : (analyze_missing_blocks w).1.file with
      | data d1 =>
        rw [hwf] at hf
        have hw1 : w.file = .data d1 := by rw [← hpres.1]; exact hwf
        have ha := analyze_missing_field hp hw1
        have hrefl := repairFetchMerge_fields_reflect env (analyze_missing_blocks w).1.chunk
          d1 d (analyze_missing_blocks w).2
          (by rw [pathOk_of_file_path_eq hpres.2.2.2.2.1]; exact hp)
          (by rw [ha.1, hpres.2.1, hpres.2.2.1])
          (by rw [ha.2, hpres.2.1, hpres.2.2.1])
          hf
        rw [hpres.2.1, hpres.2.2.1] at hrefl
        exact hrefl
      | absent =>
        rw [hwf] at hf
        exact absurd hf (by simp)
      | corrupt =>
        rw [hwf] at hf
        exact absurd hf (by simp)

/-! Round-trip facts for the chunk envelope codec. -/

lemma optStr_roundtrip (x : Option String) :
    optStrFromJson (optStrJson x) = some x := by
  cases x <;> rfl

lemma strs_roundtrip (xs : List String) :
    mapOpt Json.asStr? (xs.map Json.str) = some xs := by
  induction xs with
  | nil => rfl
  | cons x xs ih => simp [mapOpt, Json.asStr?, ih]

lemma tx_roundtrip (t : TxRec) : txFromJson (txToJson t) = some t := by
  obtain ⟨h1, h2, h3, h4, h5, h6, h7, h8, h9, h10, h11, h12⟩ := t
  simp [txFromJson, txFieldsA, txFieldsB, txToJson, Json.getField?,
    List.lookup, Json.asStr?, Json.asInt?, optStr_roundtrip]

lemma txs_roundtrip (ts : List TxRec) :
    mapOpt txFromJson (ts.map txToJson) = some ts := by
  induction ts with
  | nil => rfl
  | cons t ts ih => simp [mapOpt, tx_roundtrip, ih]

lemma block_roundtrip (b : BlockRec) : blockFromJson (blockToJson b) = some b := by
  obtain ⟨n, h, ph, ts, mi, di, td, sz, gu, gl, bf, txs, uncles⟩ := b
  by_cases hu : uncles = []
  · subst hu
    simp [blockFromJson, blockFieldsA, blockFieldsB, unclesFromJson, blockToJson,
      Json.getField?, List.lookup, Json.asStr?, Json.asInt?, Json.asArr?,
      txs_roundtrip]
  · simp [blockFromJson, blockFieldsA, blockFieldsB, unclesFromJson, blockToJson,
      Json.getField?, List.lookup, Json.asStr?, Json.asInt?, Json.asArr?,
      txs_roundtrip, hu, strs_roundtrip]

lemma blocks_roundtrip (bs : List BlockRec) :
    mapOpt blockFromJson (bs.map blockToJson) = some bs := by
  induction bs with
  | nil => rfl
  | cons b bs ih => simp [mapOpt, block_roundtrip, ih]

lemma meta_roundtrip (m : MetaRec) : metaFromJson (metaToJson m) = some m := by
  obtain ⟨m1, m2, m3, m4, m5⟩ := m
  simp [metaFromJson, metaToJson, Json.getField?, List.lookup, Json.asInt?]

lemma env_roundtrip (env : ChunkEnv) : envFromJson (envToJson env) = some env := by
  obtain ⟨v, c, sb, eb, ca, bs, m⟩ := env
  simp [envFromJson, envFieldsA, envToJson, Json.getField?, List.lookup,
    Json.asStr?, Json.asInt?, Json.asArr?, blocks_roundtrip, meta_roundtrip]

/-! Claim C1 — completeness analysis. -/

/-- File content for the C1 counterexample: block 999 lies outside the
declared range [100, 101]. -/
def c1file : ChunkFileData :=
  { blocks := [⟨100, "a"⟩, ⟨999, "b"⟩]
    meta_total_blocks := 2
    meta_last_repair := none
    extra := "" }

/-- Registry state for the C1 counterexample. -/
def c1world : World :=
  { chunk :=
      { start_block := 100, end_block := 101, status := .incomplete,
        completeness_percentage := 0, missing_blocks := [],
        file_path := "chunk.json.gz", file_hash := "", total_blocks := 0,
        last_repair_attempt := none }
    file := .data c1file }

/-- C1 (counterexample): on range [100, 101] with present numbers
{100, 999}, `Chunk.analyze_missing_blocks` stores a completeness of 100%
while `missingBlocks = [101]` is non-empty — the out-of-range block 999
counts toward the percentage, the spec's formula
`100 * |present ∩ [start, end]| / span` gives 50, and
`completenessPercentage == 100 iff missingBlocks == []` fails.  The other
cited implementation, `validate_chunk_task`, deviates even for in-range
blocks: on the spec's example (range [100, 104], blocks
{100, 101, 103, 104}) it stores 60 instead of 80. -/
theorem completeness_counts_out_of_range_blocks :
    (analyze_missing_blocks c1world).1.chunk.completeness_percentage = 100 ∧
    (analyze_missing_blocks c1world).2 = [101] ∧
    100 * (((existingNumbers c1file.blocks) ∩ Finset.Icc (100 : ℤ) 101).card : ℚ)
      / ((101 : ℚ) - 100 + 1) = 50 ∧
    validateCompleteness 100 104 [100, 101, 103, 104] = 60 := by
  refine ⟨?_, by decide, ?_, ?_⟩
  · rw [analyze_of_data (w := c1world) (d := c1file) (by decide) rfl]
    dsimp only
    rw [completenessCalc_eq (by decide)]
    rw [show (existingNumbers c1file.blocks).card = 2 from by decide]
    norm_num [c1world]
  · rw [show ((existingNumbers c1file.blocks) ∩ Finset.Icc (100 : ℤ) 101).card = 1
      from by decide]
    norm_num
  · unfold validateCompleteness find_missing_blocks_in_range
    rw [if_neg (by decide)]
    rw [show Finset.Icc (100 : ℤ) 104 \ ([100, 101, 103, 104] : List ℤ).toFinset
        = ({102} : Finset ℤ) from by decide]
    rw [Finset.sort_singleton]
    norm_num

/-- C1 (amended): for a readable chunk file and `startBlock ≤ endBlock`,
`analyze_missing_blocks` returns the sorted list of numbers in
[startBlock, endBlock] absent from the present numbers, and
`len(missingBlocks) + |present ∩ range| = span` holds; but the stored
`completenessPercentage` is `100 * |present| / span` over all present
numbers (also out-of-range ones), and it equals 100 iff `|present| = span`
— which coincides with `missingBlocks = []` only when every present number
lies inside the range. -/
theorem analyze_missing_blocks_spec_amended (w : World) (d : ChunkFileData)
    (hp : pathOk w.chunk = true) (hf : w.file = .data d)
    (hle : w.chunk.start_block ≤ w.chunk.end_block) :
    ((analyze_missing_blocks w).2).Sorted (· < ·) ∧
    (∀ n, n ∈ (analyze_missing_blocks w).2 ↔
      w.chunk.start_block ≤ n ∧ n ≤ w.chunk.end_block ∧ n ∉ existingNumbers d.blocks) ∧
    (((analyze_missing_blocks w).2).length : ℤ)
      + ((existingNumbers d.blocks
          ∩ Finset.Icc w.chunk.start_block w.chunk.end_block).card : ℤ)
      = w.chunk.end_block - w.chunk.start_block + 1 ∧
    (analyze_missing_blocks w).1.chunk.missing_blocks = (analyze_missing_blocks w).2 ∧
    (analyze_missing_blocks w).1.chunk.completeness_percentage
      = 100 * ((existingNumbers d.blocks).card : ℚ)
        / ((w.chunk.end_block : ℚ) - (w.chunk.start_block : ℚ) + 1) ∧
    ((analyze_missing_blocks w).1.chunk.completeness_percentage = 100 ↔
      ((existingNumbers d.blocks).card : ℤ)
        = w.chunk.end_block - w.chunk.start_block + 1) := by
  rw [analyze_of_data hp hf]
  dsimp only
  exact ⟨sorted_missingCalc _ _ _, fun n => mem_missingCalc,
    length_missingCalc hle _, rfl, completenessCalc_eq hle _,
    completenessCalc_eq_100_iff hle _⟩

/-- File content for the C1 witness: spec example scenario 1. -/
def c1dex : ChunkFileData :=
  { blocks := [⟨100, ""⟩, ⟨101, ""⟩, ⟨103, ""⟩, ⟨104, ""⟩]
    meta_total_blocks := 4
    meta_last_repair := none
    extra := "" }

/-- Registry state for the C1 witness: range [100, 104]. -/
def c1wex : World :=
  { chunk :=
      { start_block := 100, end_block := 104, status := .incomplete,
        completeness_percentage := 0, missing_blocks := [],
        file_path := "chunk.json.gz", file_hash := "", total_blocks := 0,
        last_repair_attempt := none }
    file := .data c1dex }

/-- C1 (witness): the amended analysis facts at the spec's example
scenario 1 — range [100, 104], blocks {100, 101, 103, 104} present. -/
theorem analyze_missing_blocks_spec_amended_witness :
    pathOk c1wex.chunk = true ∧ c1wex.file = .data c1dex ∧
    c1wex.chunk.start_block ≤ c1wex.chunk.end_block ∧
    (((analyze_missing_blocks c1wex).2).Sorted (· < ·) ∧
    (∀ n, n ∈ (analyze_missing_blocks c1wex).2 ↔
      c1wex.chunk.start_block ≤ n ∧ n ≤ c1wex.chunk.end_block
        ∧ n ∉ existingNumbers c1dex.blocks) ∧
    (((analyze_missing_blocks c1wex).2).length : ℤ)
      + ((existingNumbers c1dex.blocks
          ∩ Finset.Icc c1wex.chunk.start_block c1wex.chunk.end_block).card : ℤ)
      = c1wex.chunk.end_block - c1wex.chunk.start_block + 1 ∧
    (analyze_missing_blocks c1wex).1.chunk.missing_blocks
      = (analyze_missing_blocks c1wex).2 ∧
    (analyze_missing_blocks c1wex).1.chunk.completeness_percentage
      = 100 * ((existingNumbers c1dex.blocks).card : ℚ)
        / ((c1wex.chunk.end_block : ℚ) - (c1wex.chunk.start_block : ℚ) + 1) ∧
    ((analyze_missing_blocks c1wex).1.chunk.completeness_percentage = 100 ↔
      ((existingNumbers c1dex.blocks).card : ℤ)
        = c1wex.chunk.end_block - c1wex.chunk.start_block + 1)) :=
  ⟨by decide, rfl, by decide,
   analyze_missing_blocks_spec_amended c1wex c1dex (by decide) rfl (by decide)⟩

/-! Claim C7 — invalid range handling. -/

/-- Registry state for C7: `end_block < start_block`, readable file. -/
def c7world : World :=
  { chunk :=
      { start_block := 5, end_block := 3, status := .creating,
        completeness_percentage := 37, missing_blocks := [9],
        file_path := "chunk.json.gz", file_hash := "", total_blocks := 0,
        last_repair_attempt := none }
    file := .data { blocks := [⟨1, ""⟩], meta_total_blocks := 1,
                    meta_last_repair := none, extra := "" } }

/-- C7 (counterexample): with `endBlock = 3 < 5 = startBlock` the analysis
does not fail — it silently returns, storing `missingBlocks = []` and a
completeness of 0; there is no `InvalidRangeError` anywhere in
`Chunk.analyze_missing_blocks`. -/
theorem invalid_range_returns_silently :
    (analyze_missing_blocks c7world).2 = [] ∧
    (analyze_missing_blocks c7world).1.chunk.missing_blocks = [] ∧
    (analyze_missing_blocks c7world).1.chunk.completeness_percentage = 0 := by
  decide

/-- C7 (amended): for `endBlock < startBlock` the analysis silently returns
an empty missing list; when it reaches the formula at all it stores a
completeness of 0 (the `expected_blocks > 0` guard — division by a zero or
negative span indeed never happens), and otherwise it leaves the record
untouched.  No error is raised. -/
theorem invalid_range_amended (w : World)
    (h : w.chunk.end_block < w.chunk.start_block) :
    (analyze_missing_blocks w).2 = [] ∧
    ((analyze_missing_blocks w).1.chunk.completeness_percentage = 0 ∨
      (analyze_missing_blocks w).1 = w) := by
  by_cases hp : pathOk w.chunk
  · cases hf : w.file with
    | data d =>
      rw [analyze_of_data hp hf]
      dsimp only
      exact ⟨missingCalc_eq_nil_of_lt h _, Or.inl (completenessCalc_of_lt h _)⟩
    | absent =>
      rw [analyze_of_absent hf]
      exact ⟨rfl, Or.inr rfl⟩
    | corrupt =>
      rw [analyze_of_corrupt hf]
      exact ⟨rfl, Or.inr rfl⟩
  · rw [analyze_of_guard_false (by simpa using hp)]
    exact ⟨rfl, Or.inr rfl⟩

/-- C7 (witness): the amended behavior at the concrete world with range
[5, 3]. -/
theorem invalid_range_amended_witness :
    c7world.chunk.end_block < c7world.chunk.start_block ∧
    ((analyze_missing_blocks c7world).2 = [] ∧
    ((analyze_missing_blocks c7world).1.chunk.completeness_percentage = 0 ∨
      (analyze_missing_blocks c7world).1 = c7world)) :=
  ⟨by decide, invalid_range_amended c7world (by decide)⟩

/-! Claim C8 — decode failure handling. -/

/-- Registry state for C8: valid path, undecodable file. -/
def c8world : World :=
  { chunk :=
      { start_block := 100, end_block := 101, status := .complete,
        completeness_percentage := 55, missing_blocks := [7],
        file_path := "chunk.json.gz", file_hash := "", total_blocks := 0,
        last_repair_attempt := none }
    file := .corrupt }

/-- C8 (counterexample): on a persisted chunk file whose decompression or
JSON parse fails, `Chunk.analyze_missing_blocks` catches the exception and
returns an empty missing-block list with the record unchanged — the failure
is silently converted into an empty analysis result, not surfaced.
(`ChunkValidator.load_chunk`, by contrast, does raise.) -/
theorem corrupt_file_yields_empty_missing_list :
    analyze_missing_blocks c8world = (c8world, []) ∧
    load_chunk (some none) = .error "Cannot load chunk" :=
  ⟨analyze_of_corrupt rfl, rfl⟩

/-- C8 (amended): a decode failure is surfaced only by
`ChunkValidator.load_chunk`, which raises `ValueError`;
`Chunk.analyze_missing_blocks` swallows any decode failure and returns an
empty missing-block list, leaving the record untouched. -/
theorem decode_failure_amended :
    (∀ w : World, w.file = .corrupt → analyze_missing_blocks w = (w, [])) ∧
    (∀ f : Option (Option Json), f = none ∨ f = some none →
      load_chunk f = .error "Cannot load chunk") := by
  constructor
  · intro w hf
    exact analyze_of_corrupt hf
  · rintro f (rfl | rfl) <;> rfl

/-- C8 (witness): the amended behavior at the concrete corrupt world and a
present-but-undecodable chunk file. -/
theorem decode_failure_amended_witness :
    c8world.file = .corrupt ∧
    analyze_missing_blocks c8world = (c8world, []) ∧
    load_chunk (some none) = .error "Cannot load chunk" :=
  ⟨rfl, decode_failure_amended.1 c8world rfl,
   decode_failure_amended.2 (some none) (Or.inr rfl)⟩

/-! Claim C4 — repair with nothing missing. -/

/-- File content for C4: both blocks of the range present. -/
def c4file : ChunkFileData :=
  { blocks := [⟨100, "a"⟩, ⟨101, "b"⟩]
    meta_total_blocks := 2
    meta_last_repair := none
    extra := "" }

/-- Registry state for C4, with stale completeness fields. -/
def c4world : World :=
  { chunk :=
      { start_block := 100, end_block := 101, status := .incomplete,
        completeness_percentage := 0, missing_blocks := [100, 101],
        file_path := "chunk.json.gz", file_hash := "", total_blocks := 0,
        last_repair_attempt := none }
    file := .data c4file }

/-- Collaborators for C4 (never consulted on this input). -/
def c4env : RepairEnv :=
  { connected := true, fetch := fun _ => none, now := "t" }

/-- C4 (counterexample): repairing a chunk whose analysis finds nothing
missing returns `None` — no `RepairLog` with `blocksAttempted = 0` is
created — and while the file is untouched, the chunk record is re-saved
with recomputed completeness fields (here 0% becomes 100%), so the record
is not left unmodified either. -/
theorem repair_complete_chunk_returns_none :
    (repair_missing_blocks c4env c4world).2 = none ∧
    (repair_missing_blocks c4env c4world).1.file = c4world.file ∧
    (repair_missing_blocks c4env c4world).1.chunk.completeness_percentage = 100 ∧
    c4world.chunk.completeness_percentage = 0 := by
  have hmiss : (analyze_missing_blocks c4world).2 = [] := by decide
  refine ⟨?_, ?_, ?_, rfl⟩
  · unfold repair_missing_blocks repair_after_analyze
    rw [if_pos hmiss]
  · unfold repair_missing_blocks repair_after_analyze
    rw [if_pos hmiss]
    exact (analyze_preserves c4world).1
  · unfold repair_missing_blocks repair_after_analyze
    rw [if_pos hmiss]
    show (analyze_missing_blocks c4world).1.chunk.completeness_percentage = 100
    rw [analyze_of_data (w := c4world) (d := c4file) (by decide) rfl]
    dsimp only
    rw [completenessCalc_eq (by decide)]
    rw [show (existingNumbers c4file.blocks).card = 2 from by decide]
    norm_num [c4world]

/-- C4 (amended): repair on a chunk whose analysis finds no missing block
creates no `RepairLog` and returns `None`; no block is fetched and the
chunk file is not rewritten, but the registry record is re-saved with the
recomputed completeness fields of the analysis step. -/
theorem repair_no_missing_noop_amended (env : RepairEnv) (w : World)
    (h : (analyze_missing_blocks w).2 = []) :
    repair_missing_blocks env w = ((analyze_missing_blocks w).1, none) ∧
    (repair_missing_blocks env w).1.file = w.file := by
  constructor
  · unfold repair_missing_blocks repair_after_analyze
    rw [if_pos h]
  · unfold repair_missing_blocks repair_after_analyze
    rw [if_pos h]
    exact (analyze_preserves w).1

/-- C4 (witness): the amended no-op behavior at the complete chunk. -/
theorem repair_no_missing_noop_amended_witness :
    (analyze_missing_blocks c4world).2 = [] ∧
    (repair_missing_blocks c4env c4world = ((analyze_missing_blocks c4world).1, none) ∧
     (repair_missing_blocks c4env c4world).1.file = c4world.file) :=
  ⟨by decide, repair_no_missing_noop_amended c4env c4world (by decide)⟩

/-! Claim C3 — repair attempt with zero fetched blocks. -/

/-- File content for C3: block 101 missing from range [100, 101]. -/
def c3file : ChunkFileData :=
  { blocks := [⟨100, "a"⟩]
    meta_total_blocks := 1
    meta_last_repair := none
    extra := "" }

/-- Registry state for C3. -/
def c3world : World :=
  { chunk :=
      { start_block := 100, end_block := 101, status := .incomplete,
        completeness_percentage := 50, missing_blocks := [101],
        file_path := "chunk.json.gz", file_hash := "", total_blocks := 1,
        last_repair_attempt := none }
    file := .data c3file }

/-- Collaborators for C3: RPC reachable, but the fetch of every block
fails (a per-block exception, e.g. a timeout). -/
def c3env : RepairEnv :=
  { connected := true, fetch := fun _ => none, now := "t" }

/-- C3 (code bug): a repair attempt in which zero of the attempted blocks
were fetched finalizes its log (`completedAt` set, `blocksRepaired = 0`)
and returns — but the status recompute is nested under `if new_blocks:`
(models.py 305–324), so the final `self.save()` persists the chunk with
`status = 'repairing'`, contradicting the lifecycle rule that `repairing`
is never persisted after the attempt returns. -/
theorem zero_fetch_repair_persists_repairing_status :
    (repair_missing_blocks c3env c3world).1.chunk.status = .repairing ∧
    ((repair_missing_blocks c3env c3world).2).map (fun l => l.completed_at)
      = some (some "t") ∧
    ((repair_missing_blocks c3env c3world).2).map (fun l => l.blocks_repaired)
      = some 0 ∧
    ((repair_missing_blocks c3env c3world).2).map (fun l => l.error_message)
      = some "" ∧
    (repair_missing_blocks c3env c3world).1.file = c3world.file := by
  decide

/-! Claim C5 — batch limit accounting. -/

/-- File content for C5: all six blocks of the range missing. -/
def c5file : ChunkFileData :=
  { blocks := [], meta_total_blocks := 0, meta_last_repair := none, extra := "" }

/-- Registry state for C5: range [100, 105], six missing blocks. -/
def c5world : World :=
  { chunk :=
      { start_block := 100, end_block := 105, status := .incomplete,
        completeness_percentage := 0, missing_blocks := [],
        file_path := "chunk.json.gz", file_hash := "", total_blocks := 0,
        last_repair_attempt := none }
    file := .data c5file }

/-- Collaborators for C5: every fetch succeeds. -/
def c5env : RepairEnv :=
  { connected := true, fetch := fun n => some ⟨n, "f"⟩, now := "t" }

/-- C5 (counterexample): with six missing blocks the created `RepairLog`
records `blocksAttempted = 6` — `len(missing_blocks)`, the full missing
count — not `min(6, 5) = 5` as the claim states, even though only the
first five numbers are fetched. -/
theorem blocks_attempted_records_full_missing_count :
    ((repair_missing_blocks c5env c5world).2).map (fun l => l.blocks_attempted)
      = some 6 ∧
    ((repair_missing_blocks c5env c5world).2).map (fun l => l.blocks_attempted)
      ≠ some (min 6 5) := by
  constructor
  · decide
  · decide

/-- C5 (amended): for a repair with a non-empty missing list, the
`RepairLog` records `blocksAttempted = len(missingBlocks)` (the full
count), while only the first `min(len(missingBlocks), 5)` missing numbers
— an ascending prefix of the sorted missing list — can be fetched: the
attempt's outcome depends on the fetch collaborator only through those
first five numbers. -/
theorem repair_batch_amended (env env2 : RepairEnv) (w : World)
    (hc : env.connected = env2.connected) (hn : env.now = env2.now)
    (hf : ∀ n ∈ ((analyze_missing_blocks w).2).take 5, env.fetch n = env2.fetch n)
    (hne : (analyze_missing_blocks w).2 ≠ []) :
    ((repair_missing_blocks env w).2).map (fun l => l.blocks_attempted)
      = some ((((analyze_missing_blocks w).2).length : ℤ)) ∧
    ((((analyze_missing_blocks w).2).take 5)).length
      = min (((analyze_missing_blocks w).2).length) 5 ∧
    ((((analyze_missing_blocks w).2).take 5)).Sorted (· < ·) ∧
    repair_missing_blocks env w = repair_missing_blocks env2 w := by
  refine ⟨repair_attempted hne, ?_, ?_, repair_env_agree env env2 w hc hn hf⟩
  · rw [List.length_take]
    exact Nat.min_comm 5 _
  · exact List.Pairwise.sublist (List.take_sublist _ _) (analyze_snd_sorted w)

/-- C5 (witness): the amended batch accounting at the six-missing-block
chunk (spec example scenario 2 shape). -/
theorem repair_batch_amended_witness :
    (∀ n ∈ ((analyze_missing_blocks c5world).2).take 5,
      c5env.fetch n = c5env.fetch n) ∧
    (analyze_missing_blocks c5world).2 ≠ [] ∧
    (((repair_missing_blocks c5env c5world).2).map (fun l => l.blocks_attempted)
      = some ((((analyze_missing_blocks c5world).2).length : ℤ)) ∧
    ((((analyze_missing_blocks c5world).2).take 5)).length
      = min (((analyze_missing_blocks c5world).2).length) 5 ∧
    ((((analyze_missing_blocks c5world).2).take 5)).Sorted (· < ·) ∧
    repair_missing_blocks c5env c5world = repair_missing_blocks c5env c5world) :=
  ⟨fun n _ => rfl, by decide,
   repair_batch_amended c5env c5env c5world rfl rfl (fun n _ => rfl) (by decide)⟩

/-! Claim C6 — no mutual-exclusion check on load. -/

/-- File content for C6: block 101 missing. -/
def c6file : ChunkFileData :=
  { blocks := [⟨100, "a"⟩]
    meta_total_blocks := 1
    meta_last_repair := none
    extra := "" }

/-- Registry state for C6: the chunk is loaded already in `repairing`
status. -/
def c6world : World :=
  { chunk :=
      { start_block := 100, end_block := 101, status := .repairing,
        completeness_percentage := 50, missing_blocks := [101],
        file_path := "chunk.json.gz", file_hash := "", total_blocks := 1,
        last_repair_attempt := none }
    file := .data c6file }

/-- Collaborators for C6: fetches succeed. -/
def c6env : RepairEnv :=
  { connected := true, fetch := fun n => some ⟨n, "x"⟩, now := "t" }

/-- C6 (counterexample): a repair attempt on a chunk loaded with
`status == repairing` does not abort: it fetches a block
(`blocksRepaired = 1`) and rewrites the chunk file.
`Chunk.repair_missing_blocks` never inspects the status on load. -/
theorem repair_proceeds_despite_repairing_status :
    c6world.chunk.status = .repairing ∧
    ((repair_missing_blocks c6env c6world).2).map (fun l => l.blocks_repaired)
      = some 1 ∧
    (repair_missing_blocks c6env c6world).1.file ≠ c6world.file := by
  refine ⟨rfl, by decide, by decide⟩

/-- C6 (amended): the status found on load plays no role in the repair:
for any two load statuses the attempt produces the same `RepairLog` and
the same chunk file — there is no lease check and no abort path for
`status == repairing`. -/
theorem repair_status_blind_amended (env : RepairEnv) (w : World) (s : CStatus) :
    (repair_missing_blocks env (setStatus w s)).2
      = (repair_missing_blocks env w).2 ∧
    (repair_missing_blocks env (setStatus w s)).1.file
      = (repair_missing_blocks env w).1.file :=
  repair_setStatus env w s

/-! Claim C2 — hash/registry consistency after writes. -/

/-- File content for C2 before the repair: block 100 only. -/
def c2file : ChunkFileData :=
  { blocks := [⟨100, "a"⟩]
    meta_total_blocks := 1
    meta_last_repair := none
    extra := "" }

/-- The file content the repair writes at the C2 input: block 101 merged
in, metadata rewritten. -/
def c2merged : ChunkFileData :=
  { blocks := [⟨100, "a"⟩, ⟨101, "x"⟩]
    meta_total_blocks := 2
    meta_last_repair := some "t"
    extra := "" }

/-- Registry state for C2: the stored `file_hash` stands for the sha256 of
the one-block file currently on disk. -/
def c2world : World :=
  { chunk :=
      { start_block := 100, end_block := 101, status := .incomplete,
        completeness_percentage := 50, missing_blocks := [101],
        file_path := "chunk.json.gz", file_hash := "sha256-of-one-block-file",
        total_blocks := 1, last_repair_attempt := none }
    file := .data c2file }

/-- Collaborators for C2: the fetch of block 101 succeeds. -/
def c2env : RepairEnv :=
  { connected := true, fetch := fun n => some ⟨n, "x"⟩, now := "t" }

/-- C2 (counterexample): the repair write changes the bytes at `filePath`
(the decoded content goes from `c2file` to `c2merged ≠ c2file`) yet leaves
the registry's `fileHash` exactly as it was.  Since sha256 is collision-free
on distinct inputs, the stored hash — correct for the old bytes — cannot
equal the sha256 of the bytes now at `filePath`: the claimed invariant
fails after the write performed during a repair attempt. -/
theorem repair_rewrite_keeps_old_file_hash :
    (repair_missing_blocks c2env c2world).1.file = .data c2merged ∧
    c2merged ≠ c2file ∧
    (repair_missing_blocks c2env c2world).1.chunk.file_hash
      = c2world.chunk.file_hash := by
  refine ⟨by decide, by decide, by decide⟩

/-- C2 (amended): `repair_missing_blocks` never updates the registry's
`fileHash` — it is unchanged in every path, even when the file is
rewritten; the sha256 recorded in the sidecar metadata written by
`BlockChunker.save_chunk` does equal the sha256 of the bytes written
(write-then-verify succeeds); and the stored
`completenessPercentage`/`missingBlocks` reflect exactly the blocks inside
the file at `filePath` after the attempt. -/
theorem file_hash_maintenance_amended :
    (∀ (env : RepairEnv) (w : World),
      (repair_missing_blocks env w).1.chunk.file_hash = w.chunk.file_hash) ∧
    (∀ (B : Type) (dumps : Json → B) (size : B → ℕ) (gzipC : B → B)
      (sha : B → String) (j : Json),
      verify_chunk sha (save_chunk dumps size gzipC sha j) = .ok true) ∧
    (∀ (env : RepairEnv) (w : World) (d : ChunkFileData),
      pathOk w.chunk = true → (repair_missing_blocks env w).1.file = .data d →
      (repair_missing_blocks env w).1.chunk.missing_blocks
        = missingCalc w.chunk.start_block w.chunk.end_block (existingNumbers d.blocks) ∧
      (repair_missing_blocks env w).1.chunk.completeness_percentage
        = completenessCalc w.chunk.start_block w.chunk.end_block (existingNumbers d.blocks)) := by
  refine ⟨repair_file_hash_eq, ?_, repair_fields_reflect⟩
  intro B dumps size gzipC sha j
  unfold verify_chunk save_chunk compress_chunk metaFileJson
  simp [Json.getField?, List.lookup]

/-- C2 (witness): the amended statements at the concrete repair input and
at a concrete save. -/
theorem file_hash_maintenance_amended_witness :
    (repair_missing_blocks c2env c2world).1.chunk.file_hash
      = c2world.chunk.file_hash ∧
    verify_chunk (fun _ => "h") (save_chunk (B := Json) id (fun _ => 0) id
      (fun _ => "h") Json.null) = .ok true ∧
    pathOk c2world.chunk = true ∧
    (repair_missing_blocks c2env c2world).1.file = .data c2merged ∧
    ((repair_missing_blocks c2env c2world).1.chunk.missing_blocks
      = missingCalc c2world.chunk.start_block c2world.chunk.end_block
          (existingNumbers c2merged.blocks) ∧
    (repair_missing_blocks c2env c2world).1.chunk.completeness_percentage
      = completenessCalc c2world.chunk.start_block c2world.chunk.end_block
          (existingNumbers c2merged.blocks)) :=
  ⟨file_hash_maintenance_amended.1 c2env c2world,
   file_hash_maintenance_amended.2.1 Json id (fun _ => 0) id (fun _ => "h") Json.null,
   by decide, by decide,
   file_hash_maintenance_amended.2.2 c2env c2world c2merged (by decide) (by decide)⟩

/-! Claim C9 — encode/decode round trip. -/

/-- C9 (confirmed): for every chunk envelope, JSON-serializing and
gzip-compressing it (`BlockChunker.compress_chunk`) and then
gzip-decompressing and JSON-parsing the bytes back
(`ChunkValidator.load_chunk`) recovers the envelope exactly — the same
block list (same numbers, same per-field values, same order) and the same
`start_block`/`end_block` range fields.  `dumps`/`parse` and
`gzipC`/`gzipD` are the external `json`/`gzip` codecs, assumed mutually
inverse. -/
theorem chunk_codec_round_trip {B : Type} (dumps : Json → B) (size : B → ℕ)
    (gzipC : B → B) (sha : B → String) (parse : B → Option Json) (gzipD : B → B)
    (hpd : ∀ j, parse (dumps j) = some j) (hgz : ∀ b, gzipD (gzipC b) = b)
    (env : ChunkEnv) :
    decode_chunk parse gzipD
      ((compress_chunk dumps size gzipC sha (envToJson env)).1) = some env := by
  unfold decode_chunk compress_chunk
  dsimp only
  rw [hgz, hpd]
  exact env_roundtrip env

/-- A concrete two-transaction, one-block envelope for the C9 witness. -/
def c9env : ChunkEnv :=
  { version := "1.0"
    chain := "ethereum"
    start_block := 100
    end_block := 100
    created_at := "2024-01-01T00:00:00"
    blocks :=
      [{ number := 100, hash := "0xaa", parentHash := "0xbb",
         timestamp := 1700000000, miner := "0xcc", difficulty := 0,
         totalDifficulty := 58750003716598352816469, size := 120000,
         gasUsed := 15000000, gasLimit := 30000000, baseFeePerGas := 7,
         transactions :=
           [{ hash := "0x01", from_address := "0xf1", toAddr := some "0xf2",
              value := "1000000000000000000", gas := 21000, gasPrice := "7",
              maxFeePerGas := some "9", maxPriorityFeePerGas := none,
              nonce := 5, input := "0x", receipt := Json.null,
              trace := Json.obj [("type", Json.str "CALL")] },
            { hash := "0x02", from_address := "0xf3", toAddr := none,
              value := "0", gas := 1000000, gasPrice := "8",
              maxFeePerGas := none, maxPriorityFeePerGas := none,
              nonce := 0, input := "0x60806040", receipt := Json.null,
              trace := Json.null }]
         uncles := ["0xdd"] }]
    metadata :=
      { block_count := 1, start_timestamp := 1700000000,
        end_timestamp := 1700000000, total_transactions := 2,
        total_gas_used := 15000000 } }

/-- C9 (witness): the round trip evaluated at a concrete envelope, with the
external codecs instantiated by the identity embedding. -/
theorem chunk_codec_round_trip_witness :
    (∀ j : Json, some (id j) = some j) ∧
    (∀ b : Json, id (id b) = b) ∧
    decode_chunk (B := Json) some id
      ((compress_chunk (B := Json) id (fun _ => 0) id (fun _ => "")
        (envToJson c9env)).1) = some c9env :=
  ⟨fun j => rfl, fun b => rfl,
   chunk_codec_round_trip id (fun _ => 0) id (fun _ => "") some id
     (fun j => rfl) (fun b => rfl) c9env⟩

/-! Claim C10 — verify_chunk totality. -/

/-- C10 (counterexample): `verify_chunk` is not total at the public
interface: when the chunk file is present and the sidecar file exists but
does not parse as JSON, `json.load` raises and the exception escapes the
caller — no `False` is returned. -/
theorem verify_chunk_raises_on_corrupt_sidecar :
    verify_chunk (B := ℕ) (fun _ => "h")
      { chunkFile := some 0, metaFile := some none }
      = .error "json.load: invalid JSON in sidecar" := rfl

/-- C10 (amended): `verify_chunk` returns `False` without raising when the
chunk file or the sidecar metadata file is absent; when both are present
and the sidecar parses as JSON carrying a string `sha256` entry, it returns
`True` iff the sha256 recomputed over the chunk-file bytes equals the
recorded one.  A present sidecar that fails to parse (or lacks the key)
raises instead. -/
theorem verify_chunk_amended :
    (∀ (B : Type) (sha : B → String) (fs : ChunkerFS B),
      fs.chunkFile = none ∨ fs.metaFile = none →
      verify_chunk sha fs = .ok false) ∧
    (∀ (B : Type) (sha : B → String) (dataB : B) (m : Json) (h : String)
      (fs : ChunkerFS B),
      fs.chunkFile = some dataB → fs.metaFile = some (some m) →
      m.getField? "sha256" = some (.str h) →
      verify_chunk sha fs = .ok (sha dataB == h)) := by
  constructor
  · rintro B sha ⟨cf, mf⟩ (h | h) <;> dsimp only at h <;> subst h
    · rfl
    · cases cf <;> rfl
  · rintro B sha dataB m h ⟨cf, mf⟩ h1 h2 hfield
    dsimp only at h1 h2
    subst h1
    subst h2
    unfold verify_chunk
    dsimp only
    rw [hfield]

/-- C10 (witness): the amended behavior at an absent pair and at a parsed
sidecar whose recorded hash matches. -/
theorem verify_chunk_amended_witness :
    verify_chunk (B := ℕ) (fun _ => "h") { chunkFile := none, metaFile := none }
      = .ok false ∧
    (Json.obj [("sha256", Json.str "h")]).getField? "sha256"
      = some (Json.str "h") ∧
    verify_chunk (B := ℕ) (fun _ => "h")
      { chunkFile := some 3, metaFile := some (some (Json.obj [("sha256", Json.str "h")])) }
      = .ok ((fun (_ : ℕ) => "h") 3 == "h") :=
  ⟨verify_chunk_amended.1 ℕ (fun _ => "h") ⟨none, none⟩ (Or.inl rfl),
   rfl,
   verify_chunk_amended.2 ℕ (fun _ => "h") 3 (Json.obj [("sha256", Json.str "h")])
     "h" ⟨some 3, some (some (Json.obj [("sha256", Json.str "h")]))⟩ rfl rfl rfl⟩
